import Mathlib

/-!
Verification development for the contribution ingestion pipeline of the
level-up repository: the timestamp-validated detail cache, the actor-bound
analysis cache, the rate-limited paginated query executor, search-result
deduplication, and the orchestrator's accept/metrics/summarize logic.

Timestamps are modelled as naturals or integers (milliseconds since the
epoch), the order-preserving image of the ISO strings the source compares
through JavaScript Date objects.  Persisted document trees are modelled as
total functions from keys to optional entries.
-/

namespace LevelUp

/-- Role of the actor on a contribution, as used by search dedup and by the
metrics aggregator (RoleType in the source). -/
inductive Role
  | author
  | reviewer
  | contributor
  | commenter
deriving DecidableEq, Repr

namespace ConversationCache

/-- Identity key of a detail-cache entry, mirroring the storage path
owner/repo/type/number built by getCachePath in
src/services/conversation-cache.ts. -/
structure Key where
  owner : String
  repo : String
  ctype : String
  number : Nat
deriving DecidableEq, Repr

/-- Persisted detail-cache entry (CacheEntry in the source): the payload
data, the update timestamp the payload itself declares (entry.data.updatedAt,
mirrored as dataUpdatedAt), the copy the entry wrapper stores (entry.updatedAt)
and the write timestamp. -/
structure Entry (T : Type) where
  data : T
  dataUpdatedAt : Nat
  updatedAt : Nat
  cachedAt : Nat
deriving DecidableEq, Repr

/-- The persisted tree of detail-cache documents. -/
def Store (T : Type) := Key → Option (Entry T)

/-- ConversationCacheService.get: a stored entry is returned unless the
caller supplies an updatedAt that is strictly newer than the update timestamp
the cached payload declares, in which case the entry is reported stale
(null).  An absent argument (undefined or the falsy empty string in the
source) never invalidates. -/
def get {T : Type} (store : Store T) (k : Key) (updatedAt : Option Nat) :
    Option (Entry T) :=
  match store k with
  | none => none
  | some entry =>
    match updatedAt with
    | some u => if entry.dataUpdatedAt < u then none else some entry
    | none => some entry

/-- ConversationCacheService.set: persists the payload together with its own
declared update timestamp and the write instant. -/
def set {T : Type} (store : Store T) (k : Key) (data : T)
    (dataUpdatedAt now : Nat) : Store T :=
  fun q => if q = k then some ⟨data, dataUpdatedAt, dataUpdatedAt, now⟩ else store q

/-- Milliseconds for 2024-01-01T00:00:00Z. -/
def t20240101 : Nat := 1704067200000

/-- Milliseconds for 2024-01-02T00:00:00Z. -/
def t20240102 : Nat := 1704153600000

/-- Key for issue 42 of acme/widgets as the issue tool addresses it. -/
def sampleKey : Key := ⟨"acme", "widgets", "issue", 42⟩

/-- A store holding exactly issue 42 of acme/widgets cached with
remoteUpdatedAt 2024-01-01T00:00:00Z. -/
def sampleStore : Store Unit :=
  fun k => if k = sampleKey then some ⟨(), t20240101, t20240101, t20240101⟩ else none

end ConversationCache

namespace AnalysisCache

/-- Identity key of an analysis-cache entry: the storage path
user/owner/repo/type/number built by getCachePath in
src/services/analysis-cache.ts. -/
structure Key where
  user : String
  owner : String
  repo : String
  ctype : String
  number : Nat
deriving DecidableEq, Repr

/-- Persisted analysis-cache entry: payload plus the two write timestamps. -/
structure Entry (A : Type) where
  data : A
  updatedAt : Nat
  cachedAt : Nat
deriving DecidableEq, Repr

/-- Error raised when the service is used before an actor is bound
(the ConfigurationError of the design taxonomy). -/
inductive CacheError
  | configurationError
deriving DecidableEq, Repr

/-- Service state: the optionally bound actor and the persisted tree. -/
structure State (A : Type) where
  user : Option String
  store : Key → Option (Entry A)

/-- AnalysisCacheService.setUser. -/
def setUser {A : Type} (st : State A) (u : String) : State A :=
  { st with user := some u }

/-- The guard `if (!this.user) throw` at the head of every operation;
JavaScript truthiness makes both null and the empty string fail it. -/
def requireUser : Option String → Except CacheError String
  | none => .error .configurationError
  | some u => if u.isEmpty then .error .configurationError else .ok u

/-- AnalysisCacheService.get: rejects before an actor is bound, otherwise
reads the entry under the actor-scoped key. -/
def get {A : Type} (st : State A) (owner repo ctype : String) (number : Nat) :
    Except CacheError (Option A) :=
  match requireUser st.user with
  | .error e => .error e
  | .ok u => .ok ((st.store ⟨u, owner, repo, ctype, number⟩).map Entry.data)

/-- AnalysisCacheService.set: rejects before an actor is bound, otherwise
writes the entry under the actor-scoped key with the write instant. -/
def set {A : Type} (st : State A) (owner repo ctype : String) (number : Nat)
    (data : A) (now : Nat) : Except CacheError (State A) :=
  match requireUser st.user with
  | .error e => .error e
  | .ok u =>
    .ok { st with
      store := fun k =>
        if k = ⟨u, owner, repo, ctype, number⟩ then some ⟨data, now, now⟩ else st.store k }

/-- Path segment contributed by an optional argument: undefined and the
empty string contribute nothing to the joined path (Node's join drops empty
segments, and the source writes `owner || ''`). -/
def optSeg : Option String → List String
  | none => []
  | some s => if s.isEmpty then [] else [s]

/-- Storage path of a key inside the analysis cache root. -/
def keyPath (k : Key) : List String :=
  [k.user, k.owner, k.repo, k.ctype, toString k.number]

/-- AnalysisCacheService.clear: rejects before an actor is bound, otherwise
removes the whole subtree under user/owner/repo/type (rm -rf of the joined
path prefix). -/
def clear {A : Type} (st : State A) (owner repo ctype : Option String) :
    Except CacheError (State A) :=
  match requireUser st.user with
  | .error e => .error e
  | .ok u =>
    let root : List String := u :: (optSeg owner ++ optSeg repo ++ optSeg ctype)
    .ok { st with
      store := fun k => if root.isPrefixOf (keyPath k) then none else st.store k }

/-- Modelled from the spec: clearContribution is invoked by the discussion
and pull-request fetch tools (src/tools/fetch-discussion.ts:89 and the
cached pull-request tool) but its implementation file is not part of src/.
Per the spec of the Analysis Cache, invalidation on a detail refresh erases
the co-keyed entry for that identity, so clearContribution removes the single
actor-scoped entry at owner/repo/type/number, guarded like every operation
by the actor binding. -/
def clearContribution {A : Type} (st : State A) (owner repo ctype : String)
    (number : Nat) : Except CacheError (State A) :=
  match requireUser st.user with
  | .error e => .error e
  | .ok u =>
    .ok { st with
      store := fun k => if k = ⟨u, owner, repo, ctype, number⟩ then none else st.store k }

end AnalysisCache

/-- C1: for every cache key with a stored entry, Detail Cache get hits iff
the caller's knownUpdatedAt is absent or not newer than the stored remote
update timestamp; and the stored 2024-01-01 entry queried with knownUpdatedAt
2024-01-02 reports a miss. -/
theorem c1_detail_cache_hit_iff_not_stale :
    (∀ (T : Type) (store : ConversationCache.Store T) (k : ConversationCache.Key)
        (e : ConversationCache.Entry T) (u : Option Nat), store k = some e →
      ((ConversationCache.get store k u).isSome ↔
        (u = none ∨ ∃ v, u = some v ∧ v ≤ e.dataUpdatedAt))) ∧
    ConversationCache.get ConversationCache.sampleStore ConversationCache.sampleKey
      (some ConversationCache.t20240102) = none := by
  constructor
  · intro T store k e u hs
    unfold ConversationCache.get
    rw [hs]
    cases u with
    | none => simp
    | some v =>
      by_cases h : e.dataUpdatedAt < v
      · simp [h]
      · simp [h]
        omega
  · decide

/-- Witness for C1 at a concrete stored entry and a concrete query. -/
theorem c1_detail_cache_hit_iff_not_stale_witness :
    (ConversationCache.get ConversationCache.sampleStore ConversationCache.sampleKey
        (some ConversationCache.t20240101)).isSome ↔
      ((some ConversationCache.t20240101 : Option Nat) = none ∨
        ∃ v, (some ConversationCache.t20240101 : Option Nat) = some v ∧
          v ≤ ConversationCache.t20240101) :=
  c1_detail_cache_hit_iff_not_stale.1 Unit ConversationCache.sampleStore
    ConversationCache.sampleKey ⟨(), ConversationCache.t20240101,
      ConversationCache.t20240101, ConversationCache.t20240101⟩
    (some ConversationCache.t20240101) (by decide)

/-- C7: every Analysis Cache operation invoked before an actor is bound
raises the configuration error, and after binding a (nonempty) actor no
operation fails for that reason. -/
theorem c7_analysis_cache_actor_guard :
    (∀ (A : Type) (st : AnalysisCache.State A) (o r t : String) (n : Nat)
        (a : A) (now : Nat), st.user = none →
      AnalysisCache.get st o r t n = .error .configurationError ∧
      AnalysisCache.set st o r t n a now = .error .configurationError ∧
      AnalysisCache.clear st (some o) (some r) (some t) = .error .configurationError) ∧
    (∀ (A : Type) (st : AnalysisCache.State A) (u o r t : String) (n : Nat)
        (a : A) (now : Nat), u ≠ "" →
      AnalysisCache.get (AnalysisCache.setUser st u) o r t n ≠
        .error .configurationError ∧
      AnalysisCache.set (AnalysisCache.setUser st u) o r t n a now ≠
        .error .configurationError ∧
      AnalysisCache.clear (AnalysisCache.setUser st u) (some o) (some r) (some t) ≠
        .error .configurationError) := by
  constructor
  · intro A st o r t n a now hu
    refine ⟨?_, ?_, ?_⟩ <;>
      simp [AnalysisCache.get, AnalysisCache.set, AnalysisCache.clear, hu,
        AnalysisCache.requireUser]
  · intro A st u o r t n a now hu
    have hne : ¬u.isEmpty := by
      simpa [String.isEmpty_iff] using hu
    refine ⟨?_, ?_, ?_⟩ <;>
      simp [AnalysisCache.get, AnalysisCache.set, AnalysisCache.clear,
        AnalysisCache.setUser, AnalysisCache.requireUser, hne]

/-- Witness for C7: the unbound service rejects a get, and the same service
bound to an actor accepts it. -/
theorem c7_analysis_cache_actor_guard_witness :
    AnalysisCache.get (A := Unit) ⟨none, fun _ => none⟩ "acme" "widgets" "issues" 42 =
      .error .configurationError ∧
    AnalysisCache.get (A := Unit)
        (AnalysisCache.setUser ⟨none, fun _ => none⟩ "erin") "acme" "widgets" "issues" 42 ≠
      .error .configurationError :=
  ⟨(c7_analysis_cache_actor_guard.1 Unit ⟨none, fun _ => none⟩ "acme" "widgets"
      "issues" 42 () 0 rfl).1,
    (c7_analysis_cache_actor_guard.2 Unit ⟨none, fun _ => none⟩ "erin" "acme" "widgets"
      "issues" 42 () 0 (by decide)).1⟩

namespace FetchFlow

/-- Combined persisted state touched by the fetch tools: the detail store
and the analysis-cache service. -/
structure PipelineState (D A : Type) where
  conv : ConversationCache.Store D
  analysis : AnalysisCache.State A

/-- Contribution type as the orchestrator classifies search results. -/
inductive ContributionType
  | issue
  | pull_request
  | discussion
deriving DecidableEq, Repr

/-- contributionTypeToCacheType in src/index.ts: the type segment the
orchestrator uses for both caches. -/
def contributionTypeToCacheType : ContributionType → String
  | .issue => "issues"
  | .pull_request => "pull"
  | .discussion => "discussions"

/-- fetchIssue.handler in src/tools/fetch-issue.ts: on a detail-cache hit
the cached data is returned unchanged; on a miss the tool clears the
analysis subtree for (owner, repo, 'issue'), fetches fresh detail (the
remote payload and its declared update timestamp are parameters here) and
stores it under the type segment 'issue'. -/
def fetchIssueStep {D A : Type} (st : PipelineState D A) (owner repo : String)
    (number : Nat) (updatedAt : Option Nat) (remote : D)
    (remoteUpdatedAt now : Nat) :
    Except AnalysisCache.CacheError (PipelineState D A × D) :=
  match ConversationCache.get st.conv ⟨owner, repo, "issue", number⟩ updatedAt with
  | some cached => .ok (st, cached.data)
  | none =>
    match AnalysisCache.clear st.analysis (some owner) (some repo) (some "issue") with
    | .error e => .error e
    | .ok analysis2 =>
      .ok ({ conv := ConversationCache.set st.conv ⟨owner, repo, "issue", number⟩
                remote remoteUpdatedAt now,
             analysis := analysis2 }, remote)

/-- fetchPullRequest.handler (cached variant): detail cache consulted under
the type segment 'pull'; on a miss the co-keyed analysis entry is erased via
clearContribution before fetching and storing. -/
def fetchPullRequestStep {D A : Type} (st : PipelineState D A) (owner repo : String)
    (number : Nat) (updatedAt : Option Nat) (remote : D)
    (remoteUpdatedAt now : Nat) :
    Except AnalysisCache.CacheError (PipelineState D A × D) :=
  match ConversationCache.get st.conv ⟨owner, repo, "pull", number⟩ updatedAt with
  | some cached => .ok (st, cached.data)
  | none =>
    match AnalysisCache.clearContribution st.analysis owner repo "pull" number with
    | .error e => .error e
    | .ok analysis2 =>
      .ok ({ conv := ConversationCache.set st.conv ⟨owner, repo, "pull", number⟩
                remote remoteUpdatedAt now,
             analysis := analysis2 }, remote)

/-- fetchDiscussion.handler in src/tools/fetch-discussion.ts: detail cache
consulted under the type segment 'discussions'; on a miss the co-keyed
analysis entry is erased via clearContribution before fetching and storing. -/
def fetchDiscussionStep {D A : Type} (st : PipelineState D A) (owner repo : String)
    (number : Nat) (updatedAt : Option Nat) (remote : D)
    (remoteUpdatedAt now : Nat) :
    Except AnalysisCache.CacheError (PipelineState D A × D) :=
  match ConversationCache.get st.conv ⟨owner, repo, "discussions", number⟩ updatedAt with
  | some cached => .ok (st, cached.data)
  | none =>
    match AnalysisCache.clearContribution st.analysis owner repo "discussions" number with
    | .error e => .error e
    | .ok analysis2 =>
      .ok ({ conv := ConversationCache.set st.conv ⟨owner, repo, "discussions", number⟩
                remote remoteUpdatedAt now,
             analysis := analysis2 }, remote)

/-- Analysis-cache key under which the orchestrator persists the analysis of
issue acme/widgets#42 for actor erin: the type segment comes from
contributionTypeToCacheType and is 'issues'. -/
def issueAnalysisKey : AnalysisCache.Key :=
  ⟨"erin", "acme", "widgets", contributionTypeToCacheType .issue, 42⟩

/-- Analysis-cache key for pull request acme/widgets#7 (type segment 'pull'). -/
def pullAnalysisKey : AnalysisCache.Key :=
  ⟨"erin", "acme", "widgets", contributionTypeToCacheType .pull_request, 7⟩

/-- Analysis-cache key for discussion acme/widgets#9 (type segment
'discussions'). -/
def discussionAnalysisKey : AnalysisCache.Key :=
  ⟨"erin", "acme", "widgets", contributionTypeToCacheType .discussion, 9⟩

/-- Pipeline state with an empty detail store (so every fetch is a miss) and
one persisted analysis per contribution type, keyed as the orchestrator
writes them. -/
def samplePipelineState : PipelineState Unit String where
  conv := fun _ => none
  analysis :=
    { user := some "erin"
      store := fun k =>
        if k = issueAnalysisKey then some ⟨"stale issue analysis", 0, 0⟩
        else if k = pullAnalysisKey then some ⟨"stale pull analysis", 0, 0⟩
        else if k = discussionAnalysisKey then some ⟨"stale discussion analysis", 0, 0⟩
        else none }

end FetchFlow

/-- C2: a Detail Cache miss is claimed to erase the co-keyed Analysis Cache
entry for every contribution type.  Evaluated on a store keyed the way the
orchestrator writes analyses, the issue tool's clear targets the subtree
'issue' while the entry lives under 'issues', so the stale issue analysis
survives the refresh; the pull-request and discussion tools do erase their
co-keyed entries. -/
theorem c2_issue_refresh_leaves_stale_analysis :
    Except.map (fun p => p.1.analysis.store FetchFlow.issueAnalysisKey)
        (FetchFlow.fetchIssueStep FetchFlow.samplePipelineState "acme" "widgets" 42
          (some ConversationCache.t20240102) () ConversationCache.t20240102
          ConversationCache.t20240102) =
      .ok (some ⟨"stale issue analysis", 0, 0⟩) ∧
    Except.map (fun p => p.1.analysis.store FetchFlow.pullAnalysisKey)
        (FetchFlow.fetchPullRequestStep FetchFlow.samplePipelineState "acme" "widgets" 7
          (some ConversationCache.t20240102) () ConversationCache.t20240102
          ConversationCache.t20240102) =
      .ok none ∧
    Except.map (fun p => p.1.analysis.store FetchFlow.discussionAnalysisKey)
        (FetchFlow.fetchDiscussionStep FetchFlow.samplePipelineState "acme" "widgets" 9
          (some ConversationCache.t20240102) () ConversationCache.t20240102
          ConversationCache.t20240102) =
      .ok none :=
  ⟨rfl, rfl, rfl⟩

namespace RateLimiter

/-- Module-level state of src/services/github.ts: the last request instant
and the tracked rate-limit counter and reset instant. -/
structure RLState where
  lastRequestTime : Int
  remaining : Int
  resetAt : Int
deriving DecidableEq, Repr

/-- Minimum delay floor between consecutive calls (2000 ms). -/
def minDelayMs : Int := 2000

/-- Default quota ceiling restored when the window resets. -/
def defaultQuota : Int := 5000

/-- Delay from the minimum-floor check at the head of executeQuery:
`if (timeSinceLastRequest < 2000) sleep(2000 - timeSinceLastRequest)`. -/
def floorDelay (s : RLState) (now : Int) : Int :=
  if now - s.lastRequestTime < minDelayMs then minDelayMs - (now - s.lastRequestTime)
  else 0

/-- Delay from the quota check: when the tracked counter is at or below
zero and the entry instant is before the tracked reset instant, the caller
sleeps until that instant. -/
def quotaDelay (s : RLState) (now : Int) : Int :=
  if s.remaining ≤ 0 then (if now < s.resetAt then s.resetAt - now else 0)
  else 0

/-- Tracked rate-limit state in force when the remote call is issued: an
exhausted counter has been reset to the default ceiling and the reset
instant re-armed one window ahead. -/
def stateAtCall (s : RLState) (now : Int) : RLState :=
  if s.remaining ≤ 0 then { s with remaining := defaultQuota, resetAt := now + 3600000 }
  else s

/-- Instant at which executeQuery issues the remote call: entry instant plus
both suspensions, in the order the source performs them. -/
def callTime (s : RLState) (now : Int) : Int :=
  now + floorDelay s now + quotaDelay s now

end RateLimiter

/-- C4: the query executor enforces the 2000 ms delay floor between
consecutive calls, and an exhausted quota counter suspends the caller until
the tracked reset instant and is restored to the 5000 ceiling before the
call, so no call is issued while the tracked quota is exhausted ahead of the
reset instant. -/
theorem c4_rate_limited_execution (s : RateLimiter.RLState) (now : Int) :
    s.lastRequestTime + RateLimiter.minDelayMs ≤ RateLimiter.callTime s now ∧
    (s.remaining ≤ 0 →
      s.resetAt ≤ RateLimiter.callTime s now ∧
      (RateLimiter.stateAtCall s now).remaining = RateLimiter.defaultQuota) ∧
    (0 < s.remaining → RateLimiter.stateAtCall s now = s) := by
  refine ⟨?_, ?_, ?_⟩
  · unfold RateLimiter.callTime RateLimiter.floorDelay RateLimiter.quotaDelay
      RateLimiter.minDelayMs
    split_ifs <;> omega
  · intro h
    constructor
    · unfold RateLimiter.callTime RateLimiter.floorDelay RateLimiter.quotaDelay
        RateLimiter.minDelayMs
      split_ifs <;> omega
    · unfold RateLimiter.stateAtCall
      simp [h]
  · intro h
    unfold RateLimiter.stateAtCall
    have : ¬s.remaining ≤ 0 := by omega
    simp [this]

/-- Witness for C4 at a concrete exhausted state: the call is delayed past
the reset instant and the quota is restored to 5000. -/
theorem c4_rate_limited_execution_witness :
    (10000 : Int) ≤ RateLimiter.callTime ⟨0, 0, 10000⟩ 100 ∧
    (RateLimiter.stateAtCall ⟨0, 0, 10000⟩ 100).remaining = RateLimiter.defaultQuota :=
  (c4_rate_limited_execution ⟨0, 0, 10000⟩ 100).2.1 (by decide)

namespace Pagination

/-- One platform response page: the node list and the pageInfo continuation
flag.  The cursor is threaded by position: the k-th element of the stream is
the response to the k-th request. -/
structure Page (N : Type) where
  nodes : List N
  hasNextPage : Bool
deriving DecidableEq, Repr

/-- Hard page-size cap the source requests (first: 100). -/
def pageMax : Nat := 100

/-- Requested page size: `limit ? Math.min(100, limit - totalFetched) : 100`,
with the numeric limit 0 being falsy. -/
def itemsToFetch (limit total : Nat) : Nat :=
  if limit ≠ 0 then min pageMax (limit - total) else pageMax

/-- The while loop of fetchAllPages in src/tools/fetch-issue.ts, consuming
the platform's page stream in order: the guard
`hasNextPage && (!limit || totalFetched < limit)` re-admits the loop, and
`if (limit && totalFetched >= limit) break` stops after a page.  An
exhausted stream ends the run with the nodes collected so far. -/
def fetchPages {N : Type} : List (Page N) → Nat → Nat → List N
  | [], _, _ => []
  | p :: rest, limit, total =>
    p.nodes ++
      (if limit ≠ 0 ∧ limit ≤ total + p.nodes.length then []
       else if p.hasNextPage ∧ (limit = 0 ∨ total + p.nodes.length < limit) then
         fetchPages rest limit (total + p.nodes.length)
       else [])

/-- Entry point of the loop: nothing accumulated yet, so the guard always
admits the first page. -/
def fetchAllPages {N : Type} (pages : List (Page N)) (limit : Nat) : List N :=
  fetchPages pages limit 0

/-- Number of pages the loop consumes from the stream. -/
def consumedCount {N : Type} : List (Page N) → Nat → Nat → Nat
  | [], _, _ => 0
  | p :: rest, limit, total =>
    1 + (if limit ≠ 0 ∧ limit ≤ total + p.nodes.length then 0
         else if p.hasNextPage ∧ (limit = 0 ∨ total + p.nodes.length < limit) then
           consumedCount rest limit (total + p.nodes.length)
         else 0)

/-- A page stream honours the requested page sizes when every response holds
at most the number of nodes the loop asked for at that point. -/
def respectsRequested {N : Type} : List (Page N) → Nat → Nat → Prop
  | [], _, _ => True
  | p :: rest, limit, total =>
    p.nodes.length ≤ itemsToFetch limit total ∧
      respectsRequested rest limit (total + p.nodes.length)

theorem fetchPages_eq_take_flatten {N : Type} :
    ∀ (pages : List (Page N)) (limit total : Nat),
      fetchPages pages limit total =
        ((pages.take (consumedCount pages limit total)).map Page.nodes).flatten
  | [], _, _ => by simp [fetchPages, consumedCount]
  | p :: rest, limit, total => by
    simp only [fetchPages, consumedCount]
    by_cases h1 : limit ≠ 0 ∧ limit ≤ total + p.nodes.length
    · simp [h1]
    · by_cases h2 : (p.hasNextPage = true) ∧ (limit = 0 ∨ total + p.nodes.length < limit)
      · simp [h1, h2, Nat.add_comm 1,
          fetchPages_eq_take_flatten rest limit (total + p.nodes.length)]
      · simp [h1, h2]

theorem fetchPages_length_le {N : Type} :
    ∀ (pages : List (Page N)) (limit total : Nat), limit ≠ 0 → total < limit →
      respectsRequested pages limit total →
      (fetchPages pages limit total).length + total ≤ limit
  | [], limit, total, _, hlt, _ => by
    simp [fetchPages]
    omega
  | p :: rest, limit, total, hne, hlt, hresp => by
    obtain ⟨hlen, hrest⟩ := hresp
    rw [itemsToFetch, if_pos hne] at hlen
    have hfit : p.nodes.length ≤ limit - total :=
      le_trans hlen (min_le_right _ _)
    simp only [fetchPages]
    by_cases h1 : limit ≠ 0 ∧ limit ≤ total + p.nodes.length
    · simp [h1]
      omega
    · by_cases h2 : (p.hasNextPage = true) ∧ (limit = 0 ∨ total + p.nodes.length < limit)
      · have h3 : total + p.nodes.length < limit := by
          rcases h2.2 with h | h
          · exact absurd h hne
          · exact h
        have ih := fetchPages_length_le rest limit (total + p.nodes.length) hne h3 hrest
        simp [h1, h2]
        omega
      · simp [h1, h2]
        omega

theorem fetchPages_zero_flat {N : Type} :
    ∀ (pages : List (Page N)), (∀ p ∈ pages.dropLast, p.hasNextPage = true) →
      ∀ total, fetchPages pages 0 total = (pages.map Page.nodes).flatten
  | [], _, _ => by simp [fetchPages]
  | [p], _, total => by
    simp only [fetchPages]
    cases hb : p.hasNextPage <;> simp [hb, fetchPages]
  | p :: q :: rest, h, total => by
    have hp : p.hasNextPage = true := h p (by simp [List.dropLast])
    have ih := fetchPages_zero_flat (q :: rest)
      (fun r hr => h r (by simp [List.dropLast] at hr ⊢; tauto))
      (total + p.nodes.length)
    have step : fetchPages (p :: q :: rest) 0 total
        = p.nodes ++ fetchPages (q :: rest) 0 (total + p.nodes.length) := by
      simp only [fetchPages]
      simp [hp]
    rw [step, ih]
    simp

end Pagination

/-- C3: the paginated search executor returns the arrival-order
concatenation of exactly the pages it consumes; it stops on a page that
reports no continuation, stops once the accumulated count reaches a nonzero
limit, otherwise continues with the accumulated count carried forward; and
when the platform honours the requested page sizes the result of a positive
limit never exceeds that limit. -/
theorem c3_pagination_concatenation_and_limit :
    (∀ (N : Type) (pages : List (Pagination.Page N)) (limit : Nat),
      Pagination.fetchAllPages pages limit =
        ((pages.take (Pagination.consumedCount pages limit 0)).map
          Pagination.Page.nodes).flatten) ∧
    (∀ (N : Type) (p : Pagination.Page N) (rest : List (Pagination.Page N))
        (limit : Nat), p.hasNextPage = false →
      Pagination.fetchAllPages (p :: rest) limit = p.nodes) ∧
    (∀ (N : Type) (p : Pagination.Page N) (rest : List (Pagination.Page N))
        (limit : Nat), limit ≠ 0 → limit ≤ p.nodes.length →
      Pagination.fetchAllPages (p :: rest) limit = p.nodes) ∧
    (∀ (N : Type) (p : Pagination.Page N) (rest : List (Pagination.Page N))
        (limit : Nat), p.hasNextPage = true → (limit = 0 ∨ p.nodes.length < limit) →
      Pagination.fetchAllPages (p :: rest) limit =
        p.nodes ++ Pagination.fetchPages rest limit p.nodes.length) ∧
    (∀ (N : Type) (pages : List (Pagination.Page N)) (limit : Nat), 0 < limit →
      Pagination.respectsRequested pages limit 0 →
      (Pagination.fetchAllPages pages limit).length ≤ limit) := by
  refine ⟨?_, ?_, ?_, ?_, ?_⟩
  · intro N pages limit
    exact Pagination.fetchPages_eq_take_flatten pages limit 0
  · intro N p rest limit h
    simp only [Pagination.fetchAllPages, Pagination.fetchPages]
    split_ifs <;> simp_all
  · intro N p rest limit hne hle
    simp only [Pagination.fetchAllPages, Pagination.fetchPages]
    split_ifs <;> simp_all
  · intro N p rest limit hnext hcont
    have h1 : ¬(limit ≠ 0 ∧ limit ≤ 0 + p.nodes.length) := by omega
    simp only [Pagination.fetchAllPages, Pagination.fetchPages]
    rcases hcont with h | h <;> simp [h1, hnext, h]
  · intro N pages limit hpos hresp
    have := Pagination.fetchPages_length_le pages limit 0 (by omega) hpos hresp
    simpa [Pagination.fetchAllPages] using this

/-- Witness for C3: a two-page stream with a limit of 3, where the platform
honours the requested sizes, stops at the limit with exactly three nodes. -/
theorem c3_pagination_concatenation_and_limit_witness :
    Pagination.fetchAllPages [Pagination.Page.mk [1, 2] true,
      Pagination.Page.mk [3] true] 3 = [1, 2, 3] ∧
    (Pagination.fetchAllPages [Pagination.Page.mk [1, 2] true,
      Pagination.Page.mk [3] true] 3).length ≤ 3 := by
  constructor
  · decide
  · exact c3_pagination_concatenation_and_limit.2.2.2.2 Nat
      [Pagination.Page.mk [1, 2] true, Pagination.Page.mk [3] true] 3 (by decide)
      ⟨by decide, by decide, trivial⟩

/-- C10: a supplied limit of 0 is falsy in the source, so pagination treats
it as no limit at all: the guard keeps admitting pages while the platform
reports more, the requested page size stays at the 100 cap, and the full
stream is concatenated rather than an empty node list being returned. -/
theorem c10_zero_limit_means_unlimited :
    (∀ (N : Type) (p : Pagination.Page N) (rest : List (Pagination.Page N)),
      Pagination.fetchAllPages (p :: rest) 0 =
        p.nodes ++ (if p.hasNextPage then Pagination.fetchPages rest 0 p.nodes.length
          else [])) ∧
    (∀ (N : Type) (pages : List (Pagination.Page N)),
      (∀ p ∈ pages.dropLast, p.hasNextPage = true) →
      Pagination.fetchAllPages pages 0 = (pages.map Pagination.Page.nodes).flatten) ∧
    (∀ total : Nat, Pagination.itemsToFetch 0 total = Pagination.pageMax) ∧
    Pagination.fetchAllPages [Pagination.Page.mk [1, 2] true,
      Pagination.Page.mk [3] false] 0 = [1, 2, 3] := by
  refine ⟨?_, ?_, ?_, ?_⟩
  · intro N p rest
    simp only [Pagination.fetchAllPages, Pagination.fetchPages]
    cases hb : p.hasNextPage <;> simp [hb]
  · intro N pages h
    exact Pagination.fetchPages_zero_flat pages h 0
  · intro total
    simp [Pagination.itemsToFetch]
  · decide

/-- Witness for C10: the dropLast hypothesis holds for a concrete two-page
stream and the zero-limit run returns every node of both pages. -/
theorem c10_zero_limit_means_unlimited_witness :
    Pagination.fetchAllPages [Pagination.Page.mk [5] true,
      Pagination.Page.mk [6, 7] false] 0 =
      ([Pagination.Page.mk [5] true, Pagination.Page.mk [6, 7] false].map
        Pagination.Page.nodes).flatten :=
  c10_zero_limit_means_unlimited.2.1 Nat
    [Pagination.Page.mk [5] true, Pagination.Page.mk [6, 7] false] (by decide)

namespace SearchDedup

/-- One processed conversation from the facet searches: the shape produced
by processNodes in searchContributions.handler, a facet-determined role
attached to each node. -/
structure Conversation where
  title : String
  url : String
  created_at : String
  updated_at : String
  ctype : String
  role : Role
deriving DecidableEq, Repr

/-- Numeric role priority used by the merge loop
(author 4, reviewer 3, contributor 2, commenter 1). -/
def rolePriority : Role → Nat
  | .author => 4
  | .reviewer => 3
  | .contributor => 2
  | .commenter => 1

/-- Role kept by the merge loop: the existing entry's role is replaced only
when the incoming role has strictly higher priority. -/
def upgradeRole (existing incoming : Role) : Role :=
  if rolePriority existing < rolePriority incoming then incoming else existing

/-- One step of the merge loop over allConversations: a URL already present
keeps its entry in place with the role possibly upgraded; an unseen URL is
appended, matching the insertion order of the JavaScript Map. -/
def insertConversation (acc : List Conversation) (c : Conversation) :
    List Conversation :=
  if acc.any (fun e => e.url == c.url) then
    acc.map (fun e =>
      if e.url = c.url then { e with role := upgradeRole e.role c.role } else e)
  else acc ++ [c]

/-- The merge loop of searchContributions.handler: fold the combined facet
results into the URL-keyed map. -/
def dedupConversations (l : List Conversation) : List Conversation :=
  l.foldl insertConversation []

theorem upgradeRole_left_le (e i : Role) :
    rolePriority e ≤ rolePriority (upgradeRole e i) := by
  unfold upgradeRole
  split_ifs with h
  · omega
  · exact le_refl _

theorem upgradeRole_right_le (e i : Role) :
    rolePriority i ≤ rolePriority (upgradeRole e i) := by
  unfold upgradeRole
  split_ifs with h
  · exact le_refl _
  · omega

theorem upgradeRole_eq_or (e i : Role) : upgradeRole e i = e ∨ upgradeRole e i = i := by
  unfold upgradeRole
  split_ifs <;> simp

/-- URL of an entry touched by the merge step never changes. -/
theorem mergeTouch_url (c e : Conversation) :
    (if e.url = c.url then { e with role := upgradeRole e.role c.role } else e).url
      = e.url := by
  split_ifs <;> rfl

/-- Loop invariant of the merge: after processing the prefix l, the
accumulator has pairwise-distinct URLs, every accumulated role is realized
by some processed conversation with that URL, no processed conversation with
that URL outranks the accumulated role, and every processed URL is present. -/
def MergeInv (l acc : List Conversation) : Prop :=
  (acc.map Conversation.url).Nodup ∧
  (∀ e ∈ acc, ∃ c ∈ l, c.url = e.url ∧ c.role = e.role) ∧
  (∀ e ∈ acc, ∀ c ∈ l, c.url = e.url → rolePriority c.role ≤ rolePriority e.role) ∧
  (∀ c ∈ l, ∃ e ∈ acc, e.url = c.url)

theorem mergeInv_step (l acc : List Conversation) (c : Conversation)
    (h : MergeInv l acc) : MergeInv (l ++ [c]) (insertConversation acc c) := by
  obtain ⟨hnd, hreal, hmax, hcov⟩ := h
  unfold insertConversation
  by_cases hmem : ∃ e ∈ acc, e.url = c.url
  · have hany : acc.any (fun e => e.url == c.url) = true := by
      simp only [List.any_eq_true, beq_iff_eq]
      exact hmem
    rw [if_pos hany]
    refine ⟨?_, ?_, ?_, ?_⟩
    · have : (acc.map (fun e =>
          if e.url = c.url then { e with role := upgradeRole e.role c.role } else e)).map
            Conversation.url = acc.map Conversation.url := by
        rw [List.map_map]
        exact List.map_congr_left (fun e _ => mergeTouch_url c e)
      rw [this]
      exact hnd
    · intro x hx
      rw [List.mem_map] at hx
      obtain ⟨a, ha, rfl⟩ := hx
      by_cases hu : a.url = c.url
      · rw [if_pos hu]
        rcases upgradeRole_eq_or a.role c.role with hup | hup
        · obtain ⟨d, hd, hdu, hdr⟩ := hreal a ha
          exact ⟨d, List.mem_append_left _ hd, by simp [hdu], by simp [hup, hdr]⟩
        · exact ⟨c, List.mem_append_right _ (List.mem_singleton_self c),
            by simp [hu], by simp [hup]⟩
      · rw [if_neg hu]
        obtain ⟨d, hd, hdu, hdr⟩ := hreal a ha
        exact ⟨d, List.mem_append_left _ hd, hdu, hdr⟩
    · intro x hx d hd hdu
      rw [List.mem_map] at hx
      obtain ⟨a, ha, rfl⟩ := hx
      rw [mergeTouch_url] at hdu
      rcases List.mem_append.mp hd with hdl | hdc
      · by_cases hu : a.url = c.url
        · rw [if_pos hu]
          exact le_trans (hmax a ha d hdl hdu) (by simpa using upgradeRole_left_le a.role c.role)
        · rw [if_neg hu]
          exact hmax a ha d hdl hdu
      · have hdc' : d = c := by simpa using hdc
        have hu : a.url = c.url := by rw [← hdc', hdu]
        rw [if_pos hu]
        have : rolePriority c.role ≤ rolePriority (upgradeRole a.role c.role) :=
          upgradeRole_right_le a.role c.role
        rw [hdc']
        simpa using this
    · intro d hd
      rcases List.mem_append.mp hd with hdl | hdc
      · obtain ⟨e, he, heu⟩ := hcov d hdl
        refine ⟨if e.url = c.url then { e with role := upgradeRole e.role c.role } else e,
          List.mem_map_of_mem _ he, ?_⟩
        rw [mergeTouch_url]
        exact heu
      · have hdc' : d = c := by simpa using hdc
        obtain ⟨e, he, heu⟩ := hmem
        refine ⟨if e.url = c.url then { e with role := upgradeRole e.role c.role } else e,
          List.mem_map_of_mem _ he, ?_⟩
        rw [mergeTouch_url, heu, hdc']
  · have hany : acc.any (fun e => e.url == c.url) = false := by
      simp only [List.any_eq_false, beq_iff_eq]
      intro e he
      exact fun hurl => hmem ⟨e, he, hurl⟩
    rw [if_neg (by simp [hany])]
    refine ⟨?_, ?_, ?_, ?_⟩
    · rw [List.map_append]
      simp only [List.map_cons, List.map_nil]
      rw [List.nodup_append]
      refine ⟨hnd, List.nodup_singleton _, ?_⟩
      intro u hu
      simp only [List.mem_singleton]
      rw [List.mem_map] at hu
      obtain ⟨e, he, rfl⟩ := hu
      exact fun hurl => hmem ⟨e, he, hurl⟩
    · intro x hx
      rcases List.mem_append.mp hx with hxa | hxc
      · obtain ⟨d, hd, hdu, hdr⟩ := hreal x hxa
        exact ⟨d, List.mem_append_left _ hd, hdu, hdr⟩
      · have hxc' : x = c := by simpa using hxc
        exact ⟨c, List.mem_append_right _ (List.mem_singleton_self c),
          by rw [hxc'], by rw [hxc']⟩
    · intro x hx d hd hdu
      rcases List.mem_append.mp hx with hxa | hxc
      · rcases List.mem_append.mp hd with hdl | hdc
        · exact hmax x hxa d hdl hdu
        · have hdc' : d = c := by simpa using hdc
          exact absurd ⟨x, hxa, by rw [← hdc', hdu]⟩ hmem
      · have hxc' : x = c := by simpa using hxc
        rcases List.mem_append.mp hd with hdl | hdc
        · obtain ⟨e, he, heu⟩ := hcov d hdl
          exact absurd ⟨e, he, by rw [heu, hdu, hxc']⟩ hmem
        · have hdc' : d = c := by simpa using hdc
          exact le_of_eq (by rw [hdc', hxc'])
    · intro d hd
      rcases List.mem_append.mp hd with hdl | hdc
      · obtain ⟨e, he, heu⟩ := hcov d hdl
        exact ⟨e, List.mem_append_left _ he, heu⟩
      · have hdc' : d = c := by simpa using hdc
        exact ⟨c, List.mem_append_right _ (List.mem_singleton_self c), by rw [hdc']⟩

theorem mergeInv_foldl :
    ∀ (rest l acc : List Conversation), MergeInv l acc →
      MergeInv (l ++ rest) (rest.foldl insertConversation acc)
  | [], l, acc, h => by simpa using h
  | c :: rest, l, acc, h => by
    have step := mergeInv_step l acc c h
    have ih := mergeInv_foldl rest (l ++ [c]) (insertConversation acc c) step
    simpa using ih

theorem mergeInv_dedup (l : List Conversation) : MergeInv l (dedupConversations l) := by
  have base : MergeInv [] [] := by
    refine ⟨List.nodup_nil, ?_, ?_, ?_⟩ <;> simp
  simpa [dedupConversations] using mergeInv_foldl l [] [] base

/-- Conversation for acme/widgets#7 as the commented facet reports it. -/
def commentedSample : Conversation :=
  ⟨"Fix widget", "https://github.com/acme/widgets/pull/7", "2024-01-01", "2024-01-03",
    "pull_request", .commenter⟩

/-- The same URL as the reviewed facet reports it. -/
def reviewedSample : Conversation :=
  ⟨"Fix widget", "https://github.com/acme/widgets/pull/7", "2024-01-01", "2024-01-03",
    "pull_request", .reviewer⟩

end SearchDedup

/-- C5: the merged facet results are deduplicated by URL (one entry per
URL, every searched URL kept), the surviving role of a URL is the highest
priority among the roles its facet occurrences carry, and a URL present
under both the commented and the reviewed facets collapses to one entry
whose role is reviewer. -/
theorem c5_url_dedup_role_priority :
    (∀ l : List SearchDedup.Conversation,
      ((SearchDedup.dedupConversations l).map SearchDedup.Conversation.url).Nodup) ∧
    (∀ l : List SearchDedup.Conversation, ∀ e ∈ SearchDedup.dedupConversations l,
      ∃ c ∈ l, c.url = e.url ∧ c.role = e.role) ∧
    (∀ l : List SearchDedup.Conversation, ∀ e ∈ SearchDedup.dedupConversations l,
      ∀ c ∈ l, c.url = e.url →
        SearchDedup.rolePriority c.role ≤ SearchDedup.rolePriority e.role) ∧
    (∀ l : List SearchDedup.Conversation, ∀ c ∈ l,
      ∃ e ∈ SearchDedup.dedupConversations l, e.url = c.url) ∧
    SearchDedup.dedupConversations [SearchDedup.commentedSample,
      SearchDedup.reviewedSample] =
      [{ SearchDedup.commentedSample with role := Role.reviewer }] := by
  refine ⟨?_, ?_, ?_, ?_, ?_⟩
  · intro l
    exact (SearchDedup.mergeInv_dedup l).1
  · intro l
    exact (SearchDedup.mergeInv_dedup l).2.1
  · intro l
    exact (SearchDedup.mergeInv_dedup l).2.2.1
  · intro l
    exact (SearchDedup.mergeInv_dedup l).2.2.2
  · decide

/-- Witness for C5: in the merged commented-plus-reviewed sample, the
surviving entry outranks or equals the role of every occurrence of its URL. -/
theorem c5_url_dedup_role_priority_witness :
    SearchDedup.rolePriority SearchDedup.commentedSample.role ≤
      SearchDedup.rolePriority
        ({ SearchDedup.commentedSample with role := Role.reviewer } :
          SearchDedup.Conversation).role :=
  c5_url_dedup_role_priority.2.2.1
    [SearchDedup.commentedSample, SearchDedup.reviewedSample]
    { SearchDedup.commentedSample with role := Role.reviewer } (by decide)
    SearchDedup.commentedSample (by decide) (by decide)

namespace Orchestrator

/-- Fetched detail as the accept decision reads it: the payload's own type
tag and state string (detailedContribution.data.type and .state in
src/index.ts). -/
structure DetailData where
  dtype : String
  state : String
deriving DecidableEq, Repr

/-- The accept decision at the end of the main loop: a produced analysis is
pushed onto the analyses list, except that a pull-request detail is pushed
only when its state is merged or closed. -/
def acceptStep {A : Type} (detail : DetailData) (analysisData : Option A) :
    Option A :=
  match analysisData with
  | none => none
  | some a =>
    if detail.dtype = "pull_request" then
      if detail.state = "merged" ∨ detail.state = "closed" then some a else none
    else some a

/-- Analyses accumulated over a run, one accept decision per processed
contribution in order. -/
def acceptedAnalyses {A : Type} (items : List (DetailData × Option A)) : List A :=
  items.filterMap (fun p => acceptStep p.1 p.2)

/-- Detail of a pull request still in the open state. -/
def isOpenPullRequest (d : DetailData) : Bool :=
  d.dtype == "pull_request" && d.state == "open"

theorem acceptStep_none_of_openPR {A : Type} (d : DetailData) (a : Option A)
    (h : isOpenPullRequest d = true) : acceptStep d a = none := by
  have hd : d.dtype = "pull_request" ∧ d.state = "open" := by
    simpa [isOpenPullRequest] using h
  cases a with
  | none => rfl
  | some a =>
    have h1 : ¬(d.state = "merged" ∨ d.state = "closed") := by
      rw [hd.2]
      decide
    simp [acceptStep, hd.1, h1]

theorem acceptedAnalyses_drop_openPR {A : Type} :
    ∀ items : List (DetailData × Option A),
      acceptedAnalyses items =
        acceptedAnalyses (items.filter (fun p => !(isOpenPullRequest p.1)))
  | [] => rfl
  | p :: items => by
    have ih := acceptedAnalyses_drop_openPR items
    by_cases h : isOpenPullRequest p.1 = true
    · have hnone : acceptStep p.1 p.2 = none := acceptStep_none_of_openPR _ _ h
      simp only [acceptedAnalyses, List.filterMap_cons, List.filter_cons, h, hnone,
        Bool.not_true, Bool.false_eq_true, if_false]
      exact ih
    · have h' : isOpenPullRequest p.1 = false := by
        cases hb : isOpenPullRequest p.1
        · rfl
        · exact absurd hb h
      simp only [acceptedAnalyses, List.filterMap_cons, List.filter_cons, h',
        Bool.not_false, if_true]
      cases hs : acceptStep p.1 p.2 with
      | none => exact ih
      | some a =>
        simp only [List.filterMap_cons, hs]
        rw [show (List.filterMap (fun p => acceptStep p.1 p.2) items : List A) =
          acceptedAnalyses items from rfl, ih]
        rfl

end Orchestrator

/-- C6: an analysis whose fetched detail is an open pull request never
reaches the accepted analyses list handed to summarization: erasing all
open-pull-request items leaves the accepted list unchanged, a produced
analysis survives the accept decision exactly when the detail is not a pull
request or is a merged or closed one (so issues and discussions pass in any
state), and every surviving decision lands in the list. -/
theorem c6_open_pull_requests_never_summarized :
    (∀ (A : Type) (items : List (Orchestrator.DetailData × Option A)),
      Orchestrator.acceptedAnalyses items =
        Orchestrator.acceptedAnalyses
          (items.filter (fun p => !(Orchestrator.isOpenPullRequest p.1)))) ∧
    (∀ (A : Type) (d : Orchestrator.DetailData) (a : A),
      Orchestrator.acceptStep d (some a) = some a ↔
        (d.dtype ≠ "pull_request" ∨ d.state = "merged" ∨ d.state = "closed")) ∧
    (∀ (A : Type) (d : Orchestrator.DetailData),
      Orchestrator.acceptStep (A := A) d none = none) ∧
    (∀ (A : Type) (items : List (Orchestrator.DetailData × Option A))
        (p : Orchestrator.DetailData × Option A) (a : A), p ∈ items →
      Orchestrator.acceptStep p.1 p.2 = some a →
      a ∈ Orchestrator.acceptedAnalyses items) := by
  refine ⟨?_, ?_, ?_, ?_⟩
  · intro A items
    exact Orchestrator.acceptedAnalyses_drop_openPR items
  · intro A d a
    constructor
    · intro h
      by_cases hp : d.dtype = "pull_request"
      · by_cases hs : d.state = "merged" ∨ d.state = "closed"
        · exact Or.inr hs
        · simp [Orchestrator.acceptStep, hp, hs] at h
      · exact Or.inl hp
    · intro h
      rcases h with h | h
      · simp [Orchestrator.acceptStep, h]
      · by_cases hp : d.dtype = "pull_request" <;>
          simp [Orchestrator.acceptStep, hp, h]
  · intro A d
    rfl
  · intro A items p a hp hstep
    unfold Orchestrator.acceptedAnalyses
    rw [List.mem_filterMap]
    exact ⟨p, hp, hstep⟩

/-- Witness for C6: a merged pull request's analysis is accepted and lands
in the accepted list of a concrete run that also contains an open pull
request. -/
theorem c6_open_pull_requests_never_summarized_witness :
    ("merged pr analysis" : String) ∈ Orchestrator.acceptedAnalyses
      [(Orchestrator.DetailData.mk "pull_request" "open", some "open pr analysis"),
       (Orchestrator.DetailData.mk "pull_request" "merged", some "merged pr analysis")] :=
  c6_open_pull_requests_never_summarized.2.2.2 String
    [(Orchestrator.DetailData.mk "pull_request" "open", some "open pr analysis"),
     (Orchestrator.DetailData.mk "pull_request" "merged", some "merged pr analysis")]
    (Orchestrator.DetailData.mk "pull_request" "merged", some "merged pr analysis")
    "merged pr analysis" (by decide) (by decide)

namespace Metrics

/-- Per-type tallies of one role row (the inner objects of roleCounts). -/
structure TypeCounts where
  issues : Nat
  pull_requests : Nat
  discussions : Nat
deriving DecidableEq, Repr

/-- The roleCounts record of countRoles in src/index.ts. -/
structure RoleCounts where
  author : TypeCounts
  reviewer : TypeCounts
  commenter : TypeCounts
  contributor : TypeCounts
deriving DecidableEq, Repr

/-- An analysis record as countRoles reads it: only the role and the
conversation_type matter for the tally. -/
structure AnalysisRecord where
  user : String
  url : String
  conversation_type : String
  role : Role
deriving DecidableEq, Repr

/-- The conversationType ternary of the loop body: 'issue' counts as issues,
'pull_request' as pull_requests, anything else as discussions. -/
def bumpType (tc : TypeCounts) (ct : String) : TypeCounts :=
  if ct = "issue" then { tc with issues := tc.issues + 1 }
  else if ct = "pull_request" then { tc with pull_requests := tc.pull_requests + 1 }
  else { tc with discussions := tc.discussions + 1 }

/-- One loop iteration: roleCounts[analysis.role][conversationType]++. -/
def bumpRole (rc : RoleCounts) (r : Role) (ct : String) : RoleCounts :=
  match r with
  | .author => { rc with author := bumpType rc.author ct }
  | .reviewer => { rc with reviewer := bumpType rc.reviewer ct }
  | .commenter => { rc with commenter := bumpType rc.commenter ct }
  | .contributor => { rc with contributor := bumpType rc.contributor ct }

/-- The all-zero roleCounts literal the source starts from. -/
def emptyCounts : RoleCounts := ⟨⟨0, 0, 0⟩, ⟨0, 0, 0⟩, ⟨0, 0, 0⟩, ⟨0, 0, 0⟩⟩

/-- countRoles in src/index.ts: a left fold of the increment over the
analyses list. -/
def countRoles (analyses : List AnalysisRecord) : RoleCounts :=
  analyses.foldl (fun rc a => bumpRole rc a.role a.conversation_type) emptyCounts

/-- The three type buckets of the tally. -/
inductive TypeBucket
  | issues
  | pull_requests
  | discussions
deriving DecidableEq, Repr

/-- Bucket assigned to a conversation_type string by the loop's ternary. -/
def bucketOf (ct : String) : TypeBucket :=
  if ct = "issue" then .issues
  else if ct = "pull_request" then .pull_requests
  else .discussions

/-- Projection of one bucket out of a type row. -/
def typeCell (tc : TypeCounts) : TypeBucket → Nat
  | .issues => tc.issues
  | .pull_requests => tc.pull_requests
  | .discussions => tc.discussions

/-- Projection of one role row. -/
def roleRow (rc : RoleCounts) : Role → TypeCounts
  | .author => rc.author
  | .reviewer => rc.reviewer
  | .commenter => rc.commenter
  | .contributor => rc.contributor

/-- One cell of the role-by-type tally. -/
def cellOf (rc : RoleCounts) (r : Role) (b : TypeBucket) : Nat :=
  typeCell (roleRow rc r) b

/-- Sum of all twelve cells. -/
def totalCount (rc : RoleCounts) : Nat :=
  rc.author.issues + rc.author.pull_requests + rc.author.discussions +
  rc.reviewer.issues + rc.reviewer.pull_requests + rc.reviewer.discussions +
  rc.commenter.issues + rc.commenter.pull_requests + rc.commenter.discussions +
  rc.contributor.issues + rc.contributor.pull_requests + rc.contributor.discussions

theorem typeCell_bumpType (tc : TypeCounts) (ct : String) (b : TypeBucket) :
    typeCell (bumpType tc ct) b = typeCell tc b + (if bucketOf ct = b then 1 else 0) := by
  cases b <;> simp only [bumpType, bucketOf] <;> split_ifs <;> simp_all [typeCell]

theorem cellOf_bumpRole (rc : RoleCounts) (r : Role) (ct : String) (s : Role)
    (b : TypeBucket) :
    cellOf (bumpRole rc r ct) s b =
      cellOf rc s b + (if r = s ∧ bucketOf ct = b then 1 else 0) := by
  cases r <;> cases s <;>
    simp [bumpRole, cellOf, roleRow, typeCell_bumpType]

theorem totalCount_bumpRole (rc : RoleCounts) (r : Role) (ct : String) :
    totalCount (bumpRole rc r ct) = totalCount rc + 1 := by
  cases r <;> simp only [bumpRole, bumpType, totalCount] <;> split_ifs <;>
    simp <;> omega

theorem cellOf_foldl :
    ∀ (l : List AnalysisRecord) (rc : RoleCounts) (r : Role) (b : TypeBucket),
      cellOf (l.foldl (fun rc a => bumpRole rc a.role a.conversation_type) rc) r b =
        cellOf rc r b +
          l.countP (fun a => decide (a.role = r) && decide (bucketOf a.conversation_type = b))
  | [], rc, r, b => by simp
  | a :: l, rc, r, b => by
    rw [List.foldl_cons, cellOf_foldl l _ r b, cellOf_bumpRole, List.countP_cons]
    by_cases h : a.role = r ∧ bucketOf a.conversation_type = b
    · simp [h]
      omega
    · rw [if_neg h]
      have : (decide (a.role = r) && decide (bucketOf a.conversation_type = b)) = false := by
        rw [Classical.not_and_iff_or_not_not] at h
        rcases h with h | h <;> simp [h]
      rw [this]
      simp

theorem totalCount_foldl :
    ∀ (l : List AnalysisRecord) (rc : RoleCounts),
      totalCount (l.foldl (fun rc a => bumpRole rc a.role a.conversation_type) rc) =
        totalCount rc + l.length
  | [], rc => by simp
  | a :: l, rc => by
    rw [List.foldl_cons, totalCount_foldl l _, totalCount_bumpRole]
    simp
    omega

theorem cellOf_countRoles (l : List AnalysisRecord) (r : Role) (b : TypeBucket) :
    cellOf (countRoles l) r b =
      l.countP (fun a => decide (a.role = r) && decide (bucketOf a.conversation_type = b)) := by
  rw [countRoles, cellOf_foldl]
  have h0 : cellOf emptyCounts r b = 0 := by
    cases r <;> cases b <;> rfl
  rw [h0, Nat.zero_add]

theorem roleCounts_eq_of_cells (x y : RoleCounts)
    (h : ∀ (r : Role) (b : TypeBucket), cellOf x r b = cellOf y r b) : x = y := by
  obtain ⟨⟨a1, a2, a3⟩, ⟨b1, b2, b3⟩, ⟨c1, c2, c3⟩, ⟨d1, d2, d3⟩⟩ := x
  obtain ⟨⟨a1', a2', a3'⟩, ⟨b1', b2', b3'⟩, ⟨c1', c2', c3'⟩, ⟨d1', d2', d3'⟩⟩ := y
  have h1 := h .author .issues
  have h2 := h .author .pull_requests
  have h3 := h .author .discussions
  have h4 := h .reviewer .issues
  have h5 := h .reviewer .pull_requests
  have h6 := h .reviewer .discussions
  have h7 := h .commenter .issues
  have h8 := h .commenter .pull_requests
  have h9 := h .commenter .discussions
  have h10 := h .contributor .issues
  have h11 := h .contributor .pull_requests
  have h12 := h .contributor .discussions
  simp only [cellOf, roleRow, typeCell] at h1 h2 h3 h4 h5 h6 h7 h8 h9 h10 h11 h12
  simp_all

end Metrics

/-- C9: the metrics aggregator is a pure order-independent multiset tally:
permuted analysis lists produce identical role-by-type counts, appending one
analysis increments exactly the cell of its role and its contribution type
and leaves every other cell unchanged, and the twelve cells always sum to
the number of analyses. -/
theorem c9_count_roles_multiset_tally :
    (∀ l m : List Metrics.AnalysisRecord, l.Perm m →
      Metrics.countRoles l = Metrics.countRoles m) ∧
    (∀ (l : List Metrics.AnalysisRecord) (a : Metrics.AnalysisRecord)
        (r : Role) (b : Metrics.TypeBucket),
      Metrics.cellOf (Metrics.countRoles (l ++ [a])) r b =
        Metrics.cellOf (Metrics.countRoles l) r b +
          (if a.role = r ∧ Metrics.bucketOf a.conversation_type = b then 1 else 0)) ∧
    (∀ l : List Metrics.AnalysisRecord,
      Metrics.totalCount (Metrics.countRoles l) = l.length) := by
  refine ⟨?_, ?_, ?_⟩
  · intro l m hperm
    apply Metrics.roleCounts_eq_of_cells
    intro r b
    rw [Metrics.cellOf_countRoles, Metrics.cellOf_countRoles]
    exact hperm.countP_eq _
  · intro l a r b
    rw [Metrics.cellOf_countRoles, Metrics.cellOf_countRoles, List.countP_append]
    by_cases h : a.role = r ∧ Metrics.bucketOf a.conversation_type = b
    · simp [h]
    · rw [if_neg h]
      have : (decide (a.role = r) && decide (Metrics.bucketOf a.conversation_type = b))
          = false := by
        rw [Classical.not_and_iff_or_not_not] at h
        rcases h with h | h <;> simp [h]
      simp [this]
  · intro l
    have := Metrics.totalCount_foldl l Metrics.emptyCounts
    simpa [Metrics.countRoles, Metrics.totalCount, Metrics.emptyCounts] using this

/-- Witness for C9: swapping two concrete analyses leaves their tally
unchanged. -/
theorem c9_count_roles_multiset_tally_witness :
    Metrics.countRoles
        [Metrics.AnalysisRecord.mk "erin" "u1" "issue" Role.author,
         Metrics.AnalysisRecord.mk "erin" "u2" "pull_request" Role.reviewer] =
      Metrics.countRoles
        [Metrics.AnalysisRecord.mk "erin" "u2" "pull_request" Role.reviewer,
         Metrics.AnalysisRecord.mk "erin" "u1" "issue" Role.author] :=
  c9_count_roles_multiset_tally.1 _ _ (List.Perm.swap _ _ _)

namespace Summarize

/-- The executive-summary JSON as main validates it.  The truthiness checks
of the source mean a missing or empty string field fails validation, while
an array field only has to be present (an empty array is truthy). -/
structure SummaryJson where
  user : Option String
  role_summary : Option String
  high_level_performance_summary : Option String
  key_strengths : Option (List String)
  areas_for_improvement : Option (List String)
  standout_contributions : Option (List String)
deriving DecidableEq, Repr

/-- JavaScript falsiness of an optional string field. -/
def strFalsy : Option String → Bool
  | none => true
  | some s => s.isEmpty

/-- JavaScript falsiness of an optional array field. -/
def arrFalsy : Option (List String) → Bool
  | none => true
  | some _ => false

/-- The required-field check `if (!summaryJson.user || ...)` of main. -/
def validateSummary (j : SummaryJson) : Bool :=
  !(strFalsy j.user || strFalsy j.role_summary ||
    strFalsy j.high_level_performance_summary || arrFalsy j.key_strengths ||
    arrFalsy j.areas_for_improvement || arrFalsy j.standout_contributions)

/-- Observable outcome of the summarization collaborator call: the promise
rejects, the final message has an unexpected shape, its content is not
parseable JSON, or a JSON object is produced. -/
inductive AgentOutcome
  | throwsError
  | badShape
  | invalidJson
  | json (j : SummaryJson)
deriving DecidableEq, Repr

/-- How a run of main ends: rejected (which the process-level handler turns
into a fatal exit) or resolved, possibly carrying a validated summary. -/
inductive RunEnd
  | fatal
  | completed (summary : Option SummaryJson)
deriving DecidableEq, Repr

/-- The summarize step at the end of main in src/index.ts: with no accepted
analyses the collaborator is skipped; a collaborator failure, an unexpected
message shape, unparseable JSON or a missing required field all throw inside
the try block, are caught by the surrounding catch, logged, and the run
falls through to completion without a summary.  Only a validated response
completes with a summary; no path rethrows out of main. -/
def summarizePhase {A : Type} (analyses : List A) (resp : AgentOutcome) : RunEnd :=
  if analyses.isEmpty then .completed none
  else
    match resp with
    | .throwsError => .completed none
    | .badShape => .completed none
    | .invalidJson => .completed none
    | .json j => if validateSummary j then .completed (some j) else .completed none

/-- Per-contribution outcome inside the main loop. -/
inductive ItemOutcome (A : Type)
  | fetchFailure
  | extractFailure
  | analyzeFailure
  | analyzed (a : A)
deriving DecidableEq, Repr

/-- Analyses surviving the loop: each failed item is skipped with continue
and contributes nothing, while the rest of the run proceeds. -/
def collectAnalyses {A : Type} (items : List (ItemOutcome A)) : List A :=
  items.filterMap (fun i =>
    match i with
    | .analyzed a => some a
    | _ => none)

end Summarize

/-- C8 counterexample: with one accepted analysis and a summarization call
that fails, the run completes normally without a summary instead of ending
fatally — the outer catch logs the failure and main resolves, so a
summarize failure is not fatal to the run. -/
theorem c8_summarize_failure_counterexample :
    Summarize.summarizePhase ["analysis one"] Summarize.AgentOutcome.throwsError =
      Summarize.RunEnd.completed none ∧
    Summarize.RunEnd.completed none ≠ Summarize.RunEnd.fatal := by
  constructor
  · rfl
  · decide

/-- C8 amended: a failure while generating or validating the executive
summary is caught and logged and the run still completes, only without a
summary — no summarize outcome ends the run fatally — while a fetch or
analyze failure for a single contribution merely skips that contribution
and leaves the rest of the run intact. -/
theorem c8_summarize_failure_nonfatal :
    (∀ (A : Type) (analyses : List A) (resp : Summarize.AgentOutcome),
      Summarize.summarizePhase analyses resp ≠ Summarize.RunEnd.fatal) ∧
    (∀ (A : Type) (analyses : List A), analyses ≠ [] →
      Summarize.summarizePhase analyses Summarize.AgentOutcome.throwsError =
        Summarize.RunEnd.completed none ∧
      Summarize.summarizePhase analyses Summarize.AgentOutcome.badShape =
        Summarize.RunEnd.completed none ∧
      Summarize.summarizePhase analyses Summarize.AgentOutcome.invalidJson =
        Summarize.RunEnd.completed none ∧
      (∀ j : Summarize.SummaryJson, Summarize.validateSummary j = false →
        Summarize.summarizePhase analyses (Summarize.AgentOutcome.json j) =
          Summarize.RunEnd.completed none)) ∧
    (∀ (A : Type) (xs ys : List (Summarize.ItemOutcome A)),
      Summarize.collectAnalyses (xs ++ Summarize.ItemOutcome.fetchFailure :: ys) =
        Summarize.collectAnalyses xs ++ Summarize.collectAnalyses ys) ∧
    (∀ (A : Type) (xs ys : List (Summarize.ItemOutcome A)),
      Summarize.collectAnalyses (xs ++ Summarize.ItemOutcome.analyzeFailure :: ys) =
        Summarize.collectAnalyses xs ++ Summarize.collectAnalyses ys) := by
  refine ⟨?_, ?_, ?_, ?_⟩
  · intro A analyses resp
    cases resp <;> simp only [Summarize.summarizePhase] <;> split_ifs <;> simp
  · intro A analyses hne
    have hemp : analyses.isEmpty = false := by
      cases analyses
      · exact absurd rfl hne
      · rfl
    refine ⟨?_, ?_, ?_, ?_⟩ <;>
      simp [Summarize.summarizePhase, hemp]
  · intro A xs ys
    simp [Summarize.collectAnalyses, List.filterMap_append, List.filterMap_cons]
  · intro A xs ys
    simp [Summarize.collectAnalyses, List.filterMap_append, List.filterMap_cons]

/-- Witness for the amended C8 at a concrete run: one accepted analysis and
a rejecting summarizer still complete the run without a summary. -/
theorem c8_summarize_failure_nonfatal_witness :
    Summarize.summarizePhase ["analysis two"] Summarize.AgentOutcome.badShape =
      Summarize.RunEnd.completed none :=
  (c8_summarize_failure_nonfatal.2.1 String ["analysis two"] (by decide)).2.1

end LevelUp
